import Mathlib

/-!
Shallow embedding of the core of an SSL-certificate expiry monitor written
in Go: the configuration data model, the notification dispatcher
(`internal/notifier`), the cooldown state store with its file persistence
(`internal/state`), and the threshold-evaluation loop of the engine
(`internal/engine.checkThresholds`).  Wall-clock instants are modelled as
integer nanoseconds; Go `float64` days-remaining values are modelled as
rationals (every comparison the code performs is exact on the values the
claims exercise); the visible file system is an association list from path
to file contents, and the failure behaviour of `os.MkdirAll` /
`os.WriteFile` is a parameter of each run.
-/

namespace SSLMonitor

/-- Lookup in an association-list model of a Go map. -/
def mapFind {α β : Type} [DecidableEq α] : List (α × β) → α → Option β
  | [], _ => none
  | (k', v) :: rest, k => if k' = k then some v else mapFind rest k

/-- Go map assignment `m[k] = v` on the association-list model: afterwards
the key is bound exactly once, to `v`, and all other keys are unchanged. -/
def mapSet {α β : Type} [DecidableEq α] : List (α × β) → α → β → List (α × β)
  | [], k, v => [(k, v)]
  | p :: rest, k, v => if p.1 = k then mapSet rest k v else p :: mapSet rest k v

/-- `config.DomainConfig`. -/
structure DomainConfig where
  host : String
  port : Int
  name : String
  insecureSkipVerify : Bool
  deriving Repr, DecidableEq

/-- `config.SlackConfig`. -/
structure SlackConfig where
  enabled : Bool
  webhookURL : String
  channel : String
  username : String
  iconEmoji : String
  deriving Repr, DecidableEq

/-- `config.EmailConfig` (`from`/`to` renamed to avoid a Lean keyword). -/
structure EmailConfig where
  enabled : Bool
  smtpHost : String
  smtpPort : Int
  username : String
  password : String
  fromAddr : String
  toAddr : String
  useTLS : Bool
  deriving Repr, DecidableEq

/-- `config.WebhookConfig`. -/
structure WebhookConfig where
  enabled : Bool
  url : String
  method : String
  headers : List (String × String)
  bodyTemplate : String
  deriving Repr, DecidableEq

/-- `config.DiscordConfig`. -/
structure DiscordConfig where
  enabled : Bool
  webhookURL : String
  username : String
  avatarURL : String
  deriving Repr, DecidableEq

/-- `config.NotificationsConfig`. -/
structure NotificationsConfig where
  slack : SlackConfig
  email : EmailConfig
  webhook : WebhookConfig
  discord : DiscordConfig
  deriving Repr, DecidableEq

/-- `config.StateConfig`. -/
structure StateConfig where
  file : String
  cooldownHours : Int
  deriving Repr, DecidableEq

/-- `config.Config` (logging configuration is irrelevant to the claims). -/
structure Config where
  domains : List DomainConfig
  reminderDays : List Int
  notifications : NotificationsConfig
  state : StateConfig
  deriving Repr, DecidableEq

/-- `config.CheckResult`: the probe outcome for one domain.  `expiry` is an
instant in nanoseconds; `daysRemaining` is the signed day count. -/
structure CheckResult where
  domain : DomainConfig
  success : Bool
  error : Option String
  expiry : Int
  daysRemaining : ℚ
  deriving Repr, DecidableEq

namespace Notifier

/-- `notifier.Notification`: the payload handed to the dispatcher. -/
structure Notification where
  domain : DomainConfig
  daysRemaining : ℚ
  expiry : Int
  threshold : Int
  deriving Repr, DecidableEq

/-- One notification channel (the Go `Notifier` interface): `send` returns
`none` on success and `some reason` on failure; `name` is `Name()`. -/
structure Channel where
  name : String
  send : Notification → Option String

/-- `notifier.Manager`: the dispatcher holding the registered channels. -/
structure Manager where
  notifiers : List Channel

/-- `notifier.Manager.Send`: invoke every registered channel in order with
the same notification, collecting `(channel name, reason)` for each
failure; the Go method returns a nil error exactly when this list is
empty, and otherwise an error enumerating the list. -/
def Manager.Send (m : Manager) (n : Notification) : List (String × String) :=
  m.notifiers.foldl
    (fun errs c =>
      match c.send n with
      | some e => errs ++ [(c.name, e)]
      | none => errs)
    []

/-- The channel-specific delivery behaviour (HTTP/SMTP calls) and the Go
template parser are external; a `Backends` value supplies them to
`BuildNotifiers`. -/
structure Backends where
  slackSend : SlackConfig → Notification → Option String
  emailSend : EmailConfig → Notification → Option String
  webhookSend : WebhookConfig → Notification → Option String
  discordSend : DiscordConfig → Notification → Option String
  templateParses : String → Bool

/-- `notifier.BuildNotifiers`: append one channel per enabled backend, in
the fixed order Slack, Email, Webhook, Discord, failing fast on a missing
required field. -/
def BuildNotifiers (b : Backends) (cfg : Config) : Except String Manager := do
  let mut notifiers : List Channel := []
  if cfg.notifications.slack.enabled then
    if cfg.notifications.slack.webhookURL = "" then
      throw "failed to create Slack notifier: webhook URL is required"
    notifiers := notifiers ++ [⟨"Slack", b.slackSend cfg.notifications.slack⟩]
  if cfg.notifications.email.enabled then
    if cfg.notifications.email.smtpHost = "" then
      throw "failed to create email notifier: SMTP host is required"
    if cfg.notifications.email.fromAddr = "" then
      throw "failed to create email notifier: from address is required"
    if cfg.notifications.email.toAddr = "" then
      throw "failed to create email notifier: to address is required"
    notifiers := notifiers ++ [⟨"Email", b.emailSend cfg.notifications.email⟩]
  if cfg.notifications.webhook.enabled then
    if cfg.notifications.webhook.url = "" then
      throw "failed to create webhook notifier: webhook URL is required"
    if cfg.notifications.webhook.bodyTemplate ≠ "" ∧
        b.templateParses cfg.notifications.webhook.bodyTemplate = false then
      throw "failed to create webhook notifier: failed to parse body template"
    notifiers := notifiers ++ [⟨"Webhook", b.webhookSend cfg.notifications.webhook⟩]
  if cfg.notifications.discord.enabled then
    if cfg.notifications.discord.webhookURL = "" then
      throw "failed to create Discord notifier: webhook URL is required"
    notifiers := notifiers ++ [⟨"Discord", b.discordSend cfg.notifications.discord⟩]
  return ⟨notifiers⟩

end Notifier

namespace State

/-- Nanoseconds in `time.Hour`. -/
def nsPerHour : Int := 3600000000000

/-- `state.State`: domain host → threshold → last-sent instant. -/
structure State where
  entries : List (String × List (Int × Int))
  deriving Repr, DecidableEq

/-- The JSON image of a `State` as written by `json.MarshalIndent` and
read by `json.Unmarshal`; the Go encoding of this shape (string keys,
integer keys, RFC3339Nano timestamps) is lossless, so the external
encode/decode pair is modelled as the identity on this structured form.
A `none` inner table models a JSON `null` threshold map. -/
abbrev SerState := List (String × Option (List (Int × Int)))

/-- Contents of a state file: either a parsable serialized state or
bytes that `json.Unmarshal` rejects. -/
inductive FileData where
  | valid (s : SerState)
  | malformed
  deriving Repr, DecidableEq

/-- The visible file system: path → contents. -/
abbrev FS := List (String × FileData)

/-- Which file-system operations fail during a run (`os.MkdirAll` and
`os.WriteFile`, by path argument). -/
structure Env where
  mkdirFails : String → Bool
  writeFails : String → Bool

/-- `state.Manager`. -/
structure Manager where
  filePath : String
  cooldownHours : Int
  state : State
  deriving Repr, DecidableEq

/-- Characters of the final path segment: reads a reversed character list
up to the first slash. -/
def takeUntilSlash : List Char → List Char
  | [] => []
  | c :: rest => if c = '/' then [] else c :: takeUntilSlash rest

/-- Characters strictly before the last slash of the original path (input
is the reversed list), or `none` when the path has no slash. -/
def beforeLastSlash : List Char → Option (List Char)
  | [] => none
  | c :: rest => if c = '/' then some rest else beforeLastSlash rest

/-- `filepath.Dir` for cleaned slash-separated paths without a trailing
slash (the configuration loader resolves the state path to an absolute
cleaned path before use). -/
def goDir (p : String) : String :=
  match beforeLastSlash p.toList.reverse with
  | none => "."
  | some [] => "/"
  | some revRest => String.mk revRest.reverse

/-- `filepath.Base` for cleaned slash-separated paths without a trailing
slash. -/
def goBase (p : String) : String :=
  if p = "" then "."
  else String.mk (takeUntilSlash p.toList.reverse).reverse

/-- The fallback file name `Manager.save` computes when the target
directory cannot be created: the base name of the configured path, or
`ssl-monitor-state.json` if that base is empty. -/
def mkdirFallback (p : String) : String :=
  if goBase p = "" then "ssl-monitor-state.json" else goBase p

/-- `json.Marshal` image of the in-memory state. -/
def serialize (s : State) : SerState :=
  s.entries.map fun p => (p.1, some p.2)

/-- The nil-map normalization `Manager.load` performs after unmarshalling
("Ensure nested maps exist"). -/
def normalize (s : SerState) : State :=
  ⟨s.map fun p => (p.1, p.2.getD [])⟩

/-- `Manager.load`: an empty configured path skips loading; a missing
file is not an error and leaves the state empty; a malformed file is an
error; a parsable file yields its normalized contents. -/
def load (filePath : String) (fs : FS) : Except String State :=
  if filePath = "" then .ok ⟨[]⟩
  else
    match mapFind fs filePath with
    | none => .ok ⟨[]⟩
    | some FileData.malformed => .error "failed to unmarshal state"
    | some (FileData.valid s) => .ok (normalize s)

/-- `state.NewManager`: construct the manager, wrapping any load error. -/
def NewManager (filePath : String) (cooldownHours : Int) (fs : FS) :
    Except String Manager :=
  match load filePath fs with
  | .error e => .error ("failed to load state: " ++ e)
  | .ok st => .ok ⟨filePath, cooldownHours, st⟩

/-- Outcome of a persistence operation: the reported result, the manager
(whose `filePath` the operation may have redirected) and the file system. -/
structure SaveOut where
  result : Except String Unit
  mgr : Manager
  fs : FS

/-- `Manager.save`: an empty path is a no-op; if the target directory is
nontrivial and cannot be created, permanently redirect `filePath` to the
base name of the configured path (or `ssl-monitor-state.json` if that base
is empty); then write the marshalled state to `filePath`, and if that
write fails retry once at `ssl-monitor-state.json`, permanently
redirecting `filePath` there on success and reporting an error if the
retry also fails. -/
def save (env : Env) (m : Manager) (fs : FS) : SaveOut :=
  if m.filePath = "" then ⟨.ok (), m, fs⟩
  else
    let dir := goDir m.filePath
    let m1 :=
      if dir ≠ "" ∧ dir ≠ "." ∧ env.mkdirFails dir = true then
        let fallbackFile := goBase m.filePath
        let fallbackFile :=
          if fallbackFile = "" then "ssl-monitor-state.json" else fallbackFile
        { m with filePath := fallbackFile }
      else m
    let data := FileData.valid (serialize m1.state)
    if env.writeFails m1.filePath = true then
      if env.writeFails "ssl-monitor-state.json" = true then
        ⟨.error "failed to write state file", m1, fs⟩
      else
        ⟨.ok (), { m1 with filePath := "ssl-monitor-state.json" },
          mapSet fs "ssl-monitor-state.json" data⟩
    else ⟨.ok (), m1, mapSet fs m1.filePath data⟩

/-- `Manager.ShouldSend`: eligible when no entry exists for the pair or
when `now − lastSent` strictly exceeds `cooldownHours` hours. -/
def ShouldSend (m : Manager) (now : Int) (domain : String) (threshold : Int) :
    Bool :=
  match mapFind m.state.entries domain with
  | none => true
  | some domainMap =>
    match mapFind domainMap threshold with
    | none => true
    | some lastSent => decide (now - lastSent > m.cooldownHours * nsPerHour)

/-- The in-memory update of `Manager.MarkSent`: create the inner map if
absent and overwrite the timestamp of the pair with `now`. -/
def markSentMem (m : Manager) (domain : String) (threshold : Int) (now : Int) :
    Manager :=
  let domainMap := (mapFind m.state.entries domain).getD []
  { m with state := ⟨mapSet m.state.entries domain (mapSet domainMap threshold now)⟩ }

/-- `Manager.MarkSent`: record the send, then persist the whole store;
the in-memory mark stands even if the persist fails. -/
def MarkSent (env : Env) (m : Manager) (domain : String) (threshold : Int)
    (now : Int) (fs : FS) : SaveOut :=
  save env (markSentMem m domain threshold now) fs

/-- `Manager.GetLastSent`. -/
def GetLastSent (m : Manager) (domain : String) (threshold : Int) : Option Int :=
  match mapFind m.state.entries domain with
  | none => none
  | some domainMap => mapFind domainMap threshold

/-- `Manager.Clear`: empty the mapping and persist. -/
def Clear (env : Env) (m : Manager) (fs : FS) : SaveOut :=
  save env { m with state := ⟨[]⟩ } fs

/-- Number of bindings the store holds for one (domain, threshold) pair. -/
def entryCount (m : Manager) (domain : String) (threshold : Int) : Nat :=
  ((mapFind m.state.entries domain).getD []).countP fun p => decide (p.1 = threshold)

end State

namespace Engine

/-- The crossing test of `Engine.checkThresholds`:
`result.DaysRemaining <= float64(threshold) && result.DaysRemaining > 0`. -/
def thresholdCrossed (daysRemaining : ℚ) (threshold : Int) : Bool :=
  decide (daysRemaining ≤ (threshold : ℚ)) && decide (daysRemaining > 0)

/-- The notification the engine builds for a crossed, eligible threshold. -/
def notificationFor (domain : DomainConfig) (result : CheckResult)
    (threshold : Int) : Notifier.Notification :=
  ⟨domain, result.daysRemaining, result.expiry, threshold⟩

/-- Observable outcome of one iteration of the threshold loop. -/
structure StepOut where
  sent : Nat
  mgr : State.Manager
  fs : State.FS
  dispatched : Bool
  dispatchErrors : List (String × String)
  markSentCalled : Bool
  markSentOk : Bool

/-- One iteration of the loop body of `Engine.checkThresholds` for a single
configured threshold: if the threshold is crossed and the cooldown store
says the pair is eligible, dispatch; on aggregate dispatch success call
`MarkSent`, counting the notification only when the persist also
succeeded; on dispatch failure only log, leaving the store untouched. -/
def processThreshold (nm : Notifier.Manager) (env : State.Env) (now : Int)
    (domain : DomainConfig) (result : CheckResult) (threshold : Int)
    (sent : Nat) (m : State.Manager) (fs : State.FS) : StepOut :=
  if thresholdCrossed result.daysRemaining threshold then
    if State.ShouldSend m now domain.host threshold then
      let errs := nm.Send (notificationFor domain result threshold)
      if errs.isEmpty then
        let r := State.MarkSent env m domain.host threshold now fs
        match r.result with
        | .error _ => ⟨sent, r.mgr, r.fs, true, [], true, false⟩
        | .ok _ => ⟨sent + 1, r.mgr, r.fs, true, [], true, true⟩
      else ⟨sent, m, fs, true, errs, false, false⟩
    else ⟨sent, m, fs, false, [], false, false⟩
  else ⟨sent, m, fs, false, [], false, false⟩

/-- Outcome of `Engine.checkThresholds` for one domain: the number of
notifications sent, the final store and file system, and whether the
expired-certificate critical branch (`days remaining <= 0`) fired. -/
structure CheckOut where
  sent : Nat
  mgr : State.Manager
  fs : State.FS
  expiredCritical : Bool

/-- `Engine.checkThresholds`: fold the loop body over the configured
reminder thresholds, then flag an expired certificate as critical. -/
def checkThresholds (reminderDays : List Int) (nm : Notifier.Manager)
    (env : State.Env) (now : Int) (domain : DomainConfig) (result : CheckResult)
    (m : State.Manager) (fs : State.FS) : CheckOut :=
  let fin := reminderDays.foldl
    (fun acc t =>
      let o := processThreshold nm env now domain result t acc.1 acc.2.1 acc.2.2
      (o.sent, o.mgr, o.fs))
    (0, m, fs)
  ⟨fin.1, fin.2.1, fin.2.2, decide (result.daysRemaining ≤ 0)⟩

end Engine

/-- Environment where every file-system operation succeeds. -/
def envOK : State.Env := ⟨fun _ => false, fun _ => false⟩

/-- Environment where every directory creation fails but writes succeed. -/
def envNoDir : State.Env := ⟨fun _ => true, fun _ => false⟩

/-- Environment where every write fails. -/
def envNoWrite : State.Env := ⟨fun _ => false, fun _ => true⟩

/-- Environment where only the configured target path cannot be written. -/
def envTargetBlocked : State.Env :=
  ⟨fun _ => false, fun p => decide (p = "/var/lib/ssl-monitor/state.json")⟩

/-- Environment where directory creation fails and the base-name fallback
path cannot be written either, while other paths can. -/
def envNoDirNoBase : State.Env :=
  ⟨fun _ => true, fun p => decide (p = "state.json")⟩

/-- A sample domain target. -/
def exampleDomain : DomainConfig := ⟨"a.com", 443, "", false⟩

/-- The same host as `exampleDomain` on a different port. -/
def exampleDomainAlt : DomainConfig := ⟨"a.com", 8443, "", false⟩

/-- A successful probe five days before expiry. -/
def exampleResult : CheckResult := ⟨exampleDomain, true, none, 0, 5⟩

/-- A probe of an already-expired certificate. -/
def expiredResult : CheckResult := ⟨exampleDomain, true, none, 0, -2⟩

/-- A fresh store with a 24-hour cooldown. -/
def emptyStore : State.Manager := ⟨"state.json", 24, ⟨[]⟩⟩

/-- A store holding two entries for host `a.com`. -/
def sampleStore : State.Manager :=
  ⟨"state.json", 24, ⟨[("a.com", [(30, 111), (7, 222)])]⟩⟩

/-- A store configured under a directory that may be unwritable. -/
def varStore : State.Manager := ⟨"/var/lib/ssl-monitor/state.json", 24, ⟨[]⟩⟩

/-- A second store under the same directory with a different file name. -/
def varStoreOther : State.Manager := ⟨"/var/lib/ssl-monitor/other.json", 24, ⟨[]⟩⟩

/-- A channel whose delivery always fails. -/
def failingChannel : Notifier.Channel := ⟨"Slack", fun _ => some "connection refused"⟩

/-- A channel whose delivery always succeeds. -/
def okChannel : Notifier.Channel := ⟨"Email", fun _ => none⟩

/-- Backends that deliver nothing and accept every template. -/
def inertBackends : Notifier.Backends :=
  ⟨fun _ _ => none, fun _ _ => none, fun _ _ => none, fun _ _ => none, fun _ => true⟩

/-- A configuration with every notification channel disabled. -/
def allDisabledConfig : Config :=
  ⟨[exampleDomain], [30, 14, 7, 1],
    ⟨⟨false, "", "", "", ""⟩, ⟨false, "", 0, "", "", "", "", false⟩,
     ⟨false, "", "", [], ""⟩, ⟨false, "", "", ""⟩⟩,
    ⟨"state.json", 24⟩⟩

theorem mapFind_cons {α β : Type} [DecidableEq α] (p : α × β) (rest : List (α × β)) (k : α) :
    mapFind (p :: rest) k = if p.1 = k then some p.2 else mapFind rest k := by
  cases p
  rfl

theorem mapFind_mapSet_self {α β : Type} [DecidableEq α] (l : List (α × β)) (k : α) (v : β) :
    mapFind (mapSet l k v) k = some v := by
  induction l with
  | nil => simp [mapSet, mapFind_cons]
  | cons p rest ih =>
    by_cases hp : p.1 = k
    · simpa [mapSet, hp] using ih
    · simpa [mapSet, hp, mapFind_cons] using ih

theorem mapFind_mapSet_ne {α β : Type} [DecidableEq α] (l : List (α × β)) {k k' : α} (v : β)
    (h : k' ≠ k) : mapFind (mapSet l k v) k' = mapFind l k' := by
  induction l with
  | nil =>
    have hk : k ≠ k' := fun hh => h hh.symm
    simp [mapSet, mapFind_cons, mapFind, hk]
  | cons p rest ih =>
    by_cases hp : p.1 = k
    · have hk : k ≠ k' := fun hh => h hh.symm
      simpa [mapSet, hp, mapFind_cons, hk] using ih
    · simp [mapSet, hp, mapFind_cons, ih]

theorem countP_mapSet {α β : Type} [DecidableEq α] (l : List (α × β)) (k : α) (v : β) :
    (mapSet l k v).countP (fun p => decide (p.1 = k)) = 1 := by
  induction l with
  | nil => simp [mapSet, List.countP_cons]
  | cons p rest ih =>
    by_cases hp : p.1 = k
    · simpa [mapSet, hp] using ih
    · simpa [mapSet, hp, List.countP_cons] using ih

theorem send_foldl_eq (chans : List Notifier.Channel) (n : Notifier.Notification)
    (errs : List (String × String)) :
    chans.foldl
      (fun errs c =>
        match c.send n with
        | some e => errs ++ [(c.name, e)]
        | none => errs) errs
    = errs ++ chans.filterMap fun c => (c.send n).map fun e => (c.name, e) := by
  induction chans generalizing errs with
  | nil => simp
  | cons c rest ih =>
    rw [List.foldl_cons]
    cases h : c.send n with
    | none => simp [h, ih, List.filterMap_cons]
    | some e => simp [h, ih, List.filterMap_cons]

theorem save_mgr_state (env : State.Env) (m : State.Manager) (fs : State.FS) :
    (State.save env m fs).mgr.state = m.state := by
  unfold State.save
  dsimp only
  repeat' split
  all_goals rfl

theorem save_mgr_cooldownHours (env : State.Env) (m : State.Manager) (fs : State.FS) :
    (State.save env m fs).mgr.cooldownHours = m.cooldownHours := by
  unfold State.save
  dsimp only
  repeat' split
  all_goals rfl

theorem save_ok_of_writes_ok (env : State.Env) (m : State.Manager) (fs : State.FS)
    (hw : ∀ p, env.writeFails p = false) :
    (State.save env m fs).result = .ok () := by
  unfold State.save
  dsimp only
  simp [hw]
  try split
  all_goals rfl

theorem normalize_serialize (s : State.State) : State.normalize (State.serialize s) = s := by
  unfold State.normalize State.serialize
  cases s with
  | mk entries =>
    have hid : ((fun p => (p.1, p.2.getD [])) ∘
        fun p => ((p : String × List (Int × Int)).1, some p.2)) = id := by
      funext p
      simp
    simp only [List.map_map, hid, List.map_id]

theorem shouldSend_mono (m : State.Manager) (d : String) (t : Int) {now now' : Int}
    (h : now ≤ now') (hs : State.ShouldSend m now d t = true) :
    State.ShouldSend m now' d t = true := by
  unfold State.ShouldSend at hs ⊢
  cases h1 : mapFind m.state.entries d with
  | none => simp [h1]
  | some dm =>
    simp only [h1] at hs ⊢
    cases h2 : mapFind dm t with
    | none => simp [h2]
    | some ls =>
      simp only [h2, decide_eq_true_eq] at hs ⊢
      omega

theorem markSent_mgr_state (env : State.Env) (m : State.Manager) (d : String) (t : Int)
    (now : Int) (fs : State.FS) :
    (State.MarkSent env m d t now fs).mgr.state
      = ⟨mapSet m.state.entries d
          (mapSet ((mapFind m.state.entries d).getD []) t now)⟩ := by
  unfold State.MarkSent
  rw [save_mgr_state]
  rfl

theorem markSent_mgr_cooldownHours (env : State.Env) (m : State.Manager) (d : String)
    (t : Int) (now : Int) (fs : State.FS) :
    (State.MarkSent env m d t now fs).mgr.cooldownHours = m.cooldownHours := by
  unfold State.MarkSent
  rw [save_mgr_cooldownHours]
  rfl

theorem getLastSent_markSent_self (env : State.Env) (m : State.Manager) (d : String)
    (t : Int) (now : Int) (fs : State.FS) :
    State.GetLastSent (State.MarkSent env m d t now fs).mgr d t = some now := by
  unfold State.GetLastSent
  rw [markSent_mgr_state]
  dsimp only
  rw [mapFind_mapSet_self]
  exact mapFind_mapSet_self _ _ _

theorem shouldSend_after_markSent (env : State.Env) (m : State.Manager) (d : String)
    (t : Int) (now now' : Int) (fs : State.FS)
    (hcd : now' - now ≤ m.cooldownHours * State.nsPerHour) :
    State.ShouldSend (State.MarkSent env m d t now fs).mgr now' d t = false := by
  unfold State.ShouldSend
  rw [markSent_mgr_state, markSent_mgr_cooldownHours]
  dsimp only
  rw [mapFind_mapSet_self]
  dsimp only
  rw [mapFind_mapSet_self]
  simp only [decide_eq_false_iff_not]
  omega

theorem foldl_fixed {α β : Type} (f : α → β → α) (a : α) (l : List β)
    (h : ∀ x ∈ l, f a x = a) : l.foldl f a = a := by
  induction l with
  | nil => rfl
  | cons x xs ih =>
    rw [List.foldl_cons, h x (by simp)]
    exact ih fun y hy => h y (by simp [hy])

theorem processThreshold_not_crossed (nm : Notifier.Manager) (env : State.Env) (now : Int)
    (domain : DomainConfig) (result : CheckResult) (t : Int) (sent : Nat)
    (m : State.Manager) (fs : State.FS)
    (h : Engine.thresholdCrossed result.daysRemaining t = false) :
    Engine.processThreshold nm env now domain result t sent m fs
      = ⟨sent, m, fs, false, [], false, false⟩ := by
  unfold Engine.processThreshold
  simp [h]

theorem processThreshold_skip (nm : Notifier.Manager) (env : State.Env) (now : Int)
    (domain : DomainConfig) (result : CheckResult) (t : Int) (sent : Nat)
    (m : State.Manager) (fs : State.FS)
    (h : State.ShouldSend m now domain.host t = false) :
    Engine.processThreshold nm env now domain result t sent m fs
      = ⟨sent, m, fs, false, [], false, false⟩ := by
  unfold Engine.processThreshold
  split
  · simp [h]
  · rfl

/-- C3: the dispatcher invokes every registered channel with the same
notification, in registration order, without short-circuiting: its error
list is exactly the failing entries of the per-channel outcomes of the
whole channel list, in order, each carrying the name of the failing channel
and its reason; and the aggregate outcome is success (an empty error
list, a nil Go error) exactly when every channel succeeded. -/
theorem dispatcher_send_spec (chans : List Notifier.Channel) (n : Notifier.Notification) :
    Notifier.Manager.Send ⟨chans⟩ n
      = chans.filterMap (fun c => (c.send n).map fun e => (c.name, e))
    ∧ (Notifier.Manager.Send ⟨chans⟩ n = [] ↔ ∀ c ∈ chans, c.send n = none) := by
  have hmain : Notifier.Manager.Send ⟨chans⟩ n
      = chans.filterMap (fun c => (c.send n).map fun e => (c.name, e)) := by
    unfold Notifier.Manager.Send
    simpa using send_foldl_eq chans n []
  refine ⟨hmain, ?_⟩
  rw [hmain, List.filterMap_eq_nil_iff]
  constructor
  · intro h c hc
    have := h c hc
    simpa using this
  · intro h c hc
    simp [h c hc]

/-- C4: `ShouldSend` answers true exactly when the store has no entry for
the pair or when `now - lastSent` strictly exceeds the single configured
cooldown duration (`cooldownHours` hours, the same for every domain and
threshold); and immediately after constructing a store from an empty file
system, every pair is eligible. -/
theorem shouldsend_eligibility_spec :
    (∀ (m : State.Manager) (now : Int) (d : String) (t : Int),
      State.ShouldSend m now d t = true ↔
        State.GetLastSent m d t = none ∨
        ∃ ls, State.GetLastSent m d t = some ls ∧
          now - ls > m.cooldownHours * State.nsPerHour)
    ∧ (∀ (path : String) (ch : Int) (m' : State.Manager),
        State.NewManager path ch [] = .ok m' →
        ∀ (d : String) (t : Int) (now : Int), State.ShouldSend m' now d t = true) := by
  constructor
  · intro m now d t
    unfold State.ShouldSend State.GetLastSent
    cases h1 : mapFind m.state.entries d with
    | none => simp [h1]
    | some dm =>
      cases h2 : mapFind dm t with
      | none => simp [h1, h2]
      | some ls => simp [h1, h2]
  · intro path ch m' h d t now
    unfold State.NewManager State.load at h
    by_cases hp : path = "" <;> simp [hp, mapFind] at h <;>
      · subst h
        rfl

/-- C9: construction reads and parses the persisted file; a missing file
is not an error and yields an empty store, while a malformed file makes
construction return an error instead of a usable store. -/
theorem construction_load_spec :
    (∀ (path : String) (ch : Int) (fs : State.FS),
      path ≠ "" → mapFind fs path = none →
      State.NewManager path ch fs = .ok ⟨path, ch, ⟨[]⟩⟩)
    ∧ (∀ (path : String) (ch : Int) (fs : State.FS),
      path ≠ "" → mapFind fs path = some State.FileData.malformed →
      State.NewManager path ch fs
        = .error "failed to load state: failed to unmarshal state") := by
  constructor
  · intro path ch fs hp hm
    unfold State.NewManager State.load
    simp [hp, hm]
  · intro path ch fs hp hm
    unfold State.NewManager State.load
    simp [hp, hm]

/-- C2: a threshold `t` is crossed exactly when `0 < daysRemaining ≤ t`;
with 6.5 days remaining, of the configured thresholds `[30,14,7,1]`
exactly `{30,14,7}` are crossed; and a result with `daysRemaining ≤ 0`
crosses no threshold: `checkThresholds` sends zero notifications, leaves
the store and file system untouched, and flags the expired-certificate
critical condition. -/
theorem threshold_crossing_spec :
    (∀ (dr : ℚ) (t : Int),
      Engine.thresholdCrossed dr t = true ↔ 0 < dr ∧ dr ≤ (t : ℚ))
    ∧ ([30, 14, 7, 1] : List Int).filter (Engine.thresholdCrossed (13/2 : ℚ))
        = [30, 14, 7]
    ∧ (∀ (reminderDays : List Int) (nm : Notifier.Manager) (env : State.Env)
        (now : Int) (domain : DomainConfig) (result : CheckResult)
        (m : State.Manager) (fs : State.FS),
        result.daysRemaining ≤ 0 →
        Engine.checkThresholds reminderDays nm env now domain result m fs
          = ⟨0, m, fs, true⟩) := by
  have hiff : ∀ (dr : ℚ) (t : Int),
      Engine.thresholdCrossed dr t = true ↔ 0 < dr ∧ dr ≤ (t : ℚ) := by
    intro dr t
    unfold Engine.thresholdCrossed
    simp [and_comm]
  refine ⟨hiff, ?_, ?_⟩
  · simp [List.filter, Engine.thresholdCrossed]
    norm_num
  · intro reminderDays nm env now domain result m fs hdr
    have hnc : ∀ t : Int, Engine.thresholdCrossed result.daysRemaining t = false := by
      intro t
      cases hb : Engine.thresholdCrossed result.daysRemaining t
      · rfl
      · exact absurd ((hiff _ _).1 hb).1 (not_lt.mpr hdr)
    unfold Engine.checkThresholds
    dsimp only
    rw [foldl_fixed]
    · simp [hdr]
    · intro t ht
      rw [processThreshold_not_crossed _ _ _ _ _ _ _ _ _ (hnc t)]

/-- C6: marking the same pair twice in succession leaves exactly one
entry for the pair, holding the later of the two timestamps: the
last-sent timestamp is overwritten, never accumulated. -/
theorem marksent_overwrite_spec
    (m : State.Manager) (d : String) (t : Int) (now1 now2 : Int)
    (env1 env2 : State.Env) (fs1 fs2 : State.FS)
    (hle : now1 ≤ now2) :
    State.entryCount
        (State.MarkSent env2 (State.MarkSent env1 m d t now1 fs1).mgr d t now2 fs2).mgr
        d t = 1
    ∧ State.GetLastSent
        (State.MarkSent env2 (State.MarkSent env1 m d t now1 fs1).mgr d t now2 fs2).mgr
        d t = some (max now1 now2) := by
  constructor
  · unfold State.entryCount
    rw [markSent_mgr_state]
    dsimp only
    rw [mapFind_mapSet_self]
    simp [countP_mapSet]
  · rw [getLastSent_markSent_self, max_eq_right hle]

theorem shouldsend_eligibility_spec_witness :
    State.ShouldSend ⟨"state.json", 24, ⟨[]⟩⟩ 0 "a.com" 7 = true :=
  shouldsend_eligibility_spec.2 "state.json" 24 ⟨"state.json", 24, ⟨[]⟩⟩ rfl "a.com" 7 0

theorem construction_load_spec_witness :
    State.NewManager "state.json" 24 [] = .ok ⟨"state.json", 24, ⟨[]⟩⟩
    ∧ State.NewManager "state.json" 24 [("state.json", State.FileData.malformed)]
        = .error "failed to load state: failed to unmarshal state" :=
  ⟨construction_load_spec.1 "state.json" 24 [] (by decide) rfl,
   construction_load_spec.2 "state.json" 24 [("state.json", State.FileData.malformed)]
     (by decide) (by decide)⟩

theorem threshold_crossing_spec_witness :
    Engine.checkThresholds [30, 14, 7, 1] ⟨[]⟩ envOK 0 exampleDomain expiredResult
        emptyStore [] = ⟨0, emptyStore, [], true⟩ :=
  threshold_crossing_spec.2.2 [30, 14, 7, 1] ⟨[]⟩ envOK 0 exampleDomain expiredResult
    emptyStore [] (by norm_num [expiredResult])

theorem marksent_overwrite_spec_witness :
    State.entryCount
        (State.MarkSent envOK (State.MarkSent envOK emptyStore "a.com" 7 0 []).mgr
          "a.com" 7 5 []).mgr "a.com" 7 = 1
    ∧ State.GetLastSent
        (State.MarkSent envOK (State.MarkSent envOK emptyStore "a.com" 7 0 []).mgr
          "a.com" 7 5 []).mgr "a.com" 7 = some (max 0 5) :=
  marksent_overwrite_spec emptyStore "a.com" 7 0 5 envOK envOK [] [] (by decide)

/-- C1: for a crossed and cooldown-eligible (domain, threshold) pair, the
engine calls `MarkSent` on the store exactly when the dispatcher reports
aggregate success (an empty error list); on any dispatch failure —
including a partial one where only some channels fail — the cooldown
store and file system are left unchanged and the pair remains eligible
at every later instant. -/
theorem engine_marks_iff_dispatch_success
    (nm : Notifier.Manager) (env : State.Env) (now : Int)
    (domain : DomainConfig) (result : CheckResult) (t : Int)
    (sent : Nat) (m : State.Manager) (fs : State.FS)
    (hcross : Engine.thresholdCrossed result.daysRemaining t = true)
    (helig : State.ShouldSend m now domain.host t = true) :
    ((Engine.processThreshold nm env now domain result t sent m fs).markSentCalled = true
      ↔ Notifier.Manager.Send nm (Engine.notificationFor domain result t) = [])
    ∧ (Notifier.Manager.Send nm (Engine.notificationFor domain result t) ≠ [] →
        (Engine.processThreshold nm env now domain result t sent m fs).mgr = m
        ∧ (Engine.processThreshold nm env now domain result t sent m fs).fs = fs
        ∧ (Engine.processThreshold nm env now domain result t sent m fs).sent = sent
        ∧ ∀ now', now ≤ now' → State.ShouldSend m now' domain.host t = true) := by
  cases hE : Notifier.Manager.Send nm (Engine.notificationFor domain result t) with
  | nil =>
    cases hr : (State.MarkSent env m domain.host t now fs).result with
    | error e =>
      have hval : Engine.processThreshold nm env now domain result t sent m fs
          = ⟨sent, (State.MarkSent env m domain.host t now fs).mgr,
             (State.MarkSent env m domain.host t now fs).fs, true, [], true, false⟩ := by
        unfold Engine.processThreshold
        simp [hcross, helig, hE, hr]
      exact ⟨by simp [hval], fun hne => absurd rfl hne⟩
    | ok u =>
      have hval : Engine.processThreshold nm env now domain result t sent m fs
          = ⟨sent + 1, (State.MarkSent env m domain.host t now fs).mgr,
             (State.MarkSent env m domain.host t now fs).fs, true, [], true, true⟩ := by
        unfold Engine.processThreshold
        simp [hcross, helig, hE, hr]
      exact ⟨by simp [hval], fun hne => absurd rfl hne⟩
  | cons e es =>
    have hval : Engine.processThreshold nm env now domain result t sent m fs
        = ⟨sent, m, fs, true, e :: es, false, false⟩ := by
      unfold Engine.processThreshold
      simp [hcross, helig, hE]
    refine ⟨by simp [hval], fun _ => ⟨by simp [hval], by simp [hval], by simp [hval],
      fun now' hnn => shouldSend_mono m domain.host t hnn helig⟩⟩

theorem engine_marks_iff_dispatch_success_witness :
    (Engine.processThreshold ⟨[failingChannel]⟩ envOK 0 exampleDomain exampleResult 7 0
        emptyStore []).mgr = emptyStore
    ∧ (Engine.processThreshold ⟨[failingChannel]⟩ envOK 0 exampleDomain exampleResult 7 0
        emptyStore []).markSentCalled = false := by
  have h := engine_marks_iff_dispatch_success ⟨[failingChannel]⟩ envOK 0 exampleDomain
    exampleResult 7 0 emptyStore [] (by decide) rfl
  have hne : Notifier.Manager.Send ⟨[failingChannel]⟩
      (Engine.notificationFor exampleDomain exampleResult 7) ≠ [] := by decide
  refine ⟨(h.2 hne).1, ?_⟩
  have hmc : ¬ ((Engine.processThreshold ⟨[failingChannel]⟩ envOK 0 exampleDomain
      exampleResult 7 0 emptyStore []).markSentCalled = true) :=
    fun hmc => hne (h.1.mp hmc)
  simpa using hmc

/-- C5: the cooldown key is the host alone: after `MarkSent` for one
target, any target sharing the host (regardless of port) is ineligible at
that threshold within the cooldown window, and the engine loop body
skips it for the second target without dispatching or updating state. -/
theorem cooldown_key_is_host_spec
    (d1 d2 : DomainConfig) (hhost : d1.host = d2.host)
    (nm : Notifier.Manager) (env env' : State.Env) (fs fs' : State.FS)
    (m : State.Manager) (t : Int) (now now' : Int) (result : CheckResult) (sent : Nat)
    (hcd : now' - now ≤ m.cooldownHours * State.nsPerHour) :
    State.ShouldSend (State.MarkSent env m d1.host t now fs).mgr now' d2.host t = false
    ∧ Engine.processThreshold nm env' now' d2 result t sent
        (State.MarkSent env m d1.host t now fs).mgr fs'
      = ⟨sent, (State.MarkSent env m d1.host t now fs).mgr, fs', false, [], false, false⟩ := by
  have hss : State.ShouldSend (State.MarkSent env m d1.host t now fs).mgr now'
      d2.host t = false := by
    rw [← hhost]
    exact shouldSend_after_markSent env m d1.host t now now' fs hcd
  exact ⟨hss, processThreshold_skip _ _ _ _ _ _ _ _ _ hss⟩

theorem cooldown_key_is_host_spec_witness :
    State.ShouldSend (State.MarkSent envOK emptyStore exampleDomain.host 7 0 []).mgr 1000
        exampleDomainAlt.host 7 = false
    ∧ Engine.processThreshold ⟨[]⟩ envOK 1000 exampleDomainAlt exampleResult 7 0
        (State.MarkSent envOK emptyStore exampleDomain.host 7 0 []).mgr []
      = ⟨0, (State.MarkSent envOK emptyStore exampleDomain.host 7 0 []).mgr, [],
          false, [], false, false⟩ :=
  cooldown_key_is_host_spec exampleDomain exampleDomainAlt rfl ⟨[]⟩ envOK envOK [] []
    emptyStore 7 0 1000 exampleResult 0 (by decide)

/-- C7: persisting a store and constructing a fresh instance from the
persisted form reproduces exactly the same logical mapping: when the
target write succeeds, `save` then `NewManager` on the configured path
yields a store with the identical state, so every `GetLastSent` lookup
agrees exactly with the value in the original store. -/
theorem persistence_roundtrip_spec
    (m : State.Manager) (env : State.Env) (fs : State.FS)
    (hpath : m.filePath ≠ "")
    (hdir : env.mkdirFails (State.goDir m.filePath) = false)
    (hwrite : env.writeFails m.filePath = false) :
    (State.save env m fs).result = .ok ()
    ∧ ∀ ch, State.NewManager m.filePath ch (State.save env m fs).fs
        = .ok ⟨m.filePath, ch, m.state⟩
      ∧ ∀ d t, State.GetLastSent ⟨m.filePath, ch, m.state⟩ d t
          = State.GetLastSent m d t := by
  have hsave : State.save env m fs
      = ⟨.ok (), m, mapSet fs m.filePath
          (State.FileData.valid (State.serialize m.state))⟩ := by
    unfold State.save
    simp [hpath, hdir, hwrite]
  refine ⟨by rw [hsave], fun ch => ⟨?_, fun d t => rfl⟩⟩
  rw [hsave]
  unfold State.NewManager State.load
  simp [hpath, mapFind_mapSet_self, normalize_serialize]

theorem persistence_roundtrip_spec_witness :
    State.NewManager "state.json" 24 (State.save envOK sampleStore []).fs
      = .ok ⟨"state.json", 24, sampleStore.state⟩
    ∧ State.GetLastSent ⟨"state.json", 24, sampleStore.state⟩ "a.com" 30 = some 111
    ∧ State.GetLastSent ⟨"state.json", 24, sampleStore.state⟩ "a.com" 7 = some 222 := by
  have h := persistence_roundtrip_spec sampleStore envOK [] (by decide) rfl rfl
  exact ⟨(h.2 24).1, by decide, by decide⟩

/-- C8 counterexample: when the target directory cannot be created, the
fallback file is the base name of the configured path, not a fixed
filename — two different configured paths fall back to two different
names and the fixed name `ssl-monitor-state.json` is not written — and
when both the target write and the fallback write fail, the operation
fails instead of falling back. -/
theorem save_fallback_counterexample :
    (State.save envNoDir varStore []).mgr.filePath = "state.json"
    ∧ (State.save envNoDir varStoreOther []).mgr.filePath = "other.json"
    ∧ mapFind (State.save envNoDir varStore []).fs "ssl-monitor-state.json" = none
    ∧ mapFind (State.save envNoDir varStore []).fs "state.json"
        = some (State.FileData.valid [])
    ∧ (State.save envNoWrite varStore []).result
        = .error "failed to write state file" := by
  exact ⟨rfl, rfl, rfl, rfl, rfl⟩

/-- C8 amended: on every persist with a nonempty configured path, if the
nontrivial target directory cannot be created, the store first
permanently redirects its path to the base name of the configured path
in the current working directory (or `ssl-monitor-state.json` if that
base is empty); it then writes the marshalled store to the (possibly
redirected) effective path `p1`; if that write fails it retries once
with the fixed filename `ssl-monitor-state.json`, permanently
redirecting subsequent writes there on success; if the retry also
fails, the persist reports an error and writes nothing.  Stated for the
effective path `p1`, covering every combination of directory-creation
and write failures, including saves whose path was already redirected
(where the directory is trivially `.` and no further redirect occurs). -/
theorem save_fallback_amended_spec
    (m : State.Manager) (env : State.Env) (fs : State.FS) (p1 : String)
    (hpath : m.filePath ≠ "")
    (hp1 : p1 = if State.goDir m.filePath ≠ "" ∧ State.goDir m.filePath ≠ "."
          ∧ env.mkdirFails (State.goDir m.filePath) = true
        then State.mkdirFallback m.filePath else m.filePath) :
    (env.writeFails p1 = false →
      State.save env m fs
        = ⟨.ok (), { m with filePath := p1 },
           mapSet fs p1 (State.FileData.valid (State.serialize m.state))⟩)
    ∧ (env.writeFails p1 = true →
       env.writeFails "ssl-monitor-state.json" = false →
      State.save env m fs
        = ⟨.ok (), { m with filePath := "ssl-monitor-state.json" },
           mapSet fs "ssl-monitor-state.json"
             (State.FileData.valid (State.serialize m.state))⟩)
    ∧ (env.writeFails p1 = true →
       env.writeFails "ssl-monitor-state.json" = true →
      State.save env m fs
        = ⟨.error "failed to write state file", { m with filePath := p1 }, fs⟩) := by
  by_cases hR : State.goDir m.filePath ≠ "" ∧ State.goDir m.filePath ≠ "."
      ∧ env.mkdirFails (State.goDir m.filePath) = true
  · rw [if_pos hR] at hp1
    subst hp1
    have hsave : State.save env m fs
        = if env.writeFails (State.mkdirFallback m.filePath) = true then
            (if env.writeFails "ssl-monitor-state.json" = true then
              ⟨.error "failed to write state file",
               { m with filePath := State.mkdirFallback m.filePath }, fs⟩
            else ⟨.ok (), { m with filePath := "ssl-monitor-state.json" },
                   mapSet fs "ssl-monitor-state.json"
                     (State.FileData.valid (State.serialize m.state))⟩)
          else ⟨.ok (), { m with filePath := State.mkdirFallback m.filePath },
                 mapSet fs (State.mkdirFallback m.filePath)
                   (State.FileData.valid (State.serialize m.state))⟩ := by
      unfold State.save State.mkdirFallback
      dsimp only
      rw [if_neg hpath, if_pos hR]
    refine ⟨fun hw1 => ?_, fun hw1 hw2 => ?_, fun hw1 hw2 => ?_⟩
    · simp [hsave, hw1]
    · simp [hsave, hw1, hw2]
    · simp [hsave, hw1, hw2]
  · rw [if_neg hR] at hp1
    subst hp1
    have hsave : State.save env m fs
        = if env.writeFails m.filePath = true then
            (if env.writeFails "ssl-monitor-state.json" = true then
              ⟨.error "failed to write state file", m, fs⟩
            else ⟨.ok (), { m with filePath := "ssl-monitor-state.json" },
                   mapSet fs "ssl-monitor-state.json"
                     (State.FileData.valid (State.serialize m.state))⟩)
          else ⟨.ok (), m, mapSet fs m.filePath
                 (State.FileData.valid (State.serialize m.state))⟩ := by
      unfold State.save
      dsimp only
      rw [if_neg hpath, if_neg hR]
    refine ⟨fun hw1 => ?_, fun hw1 hw2 => ?_, fun hw1 hw2 => ?_⟩
    · simp [hsave, hw1]
    · simp [hsave, hw1, hw2]
    · simp [hsave, hw1, hw2]

theorem save_fallback_amended_spec_witness :
    State.save envNoDirNoBase varStore []
      = ⟨.ok (), { varStore with filePath := "ssl-monitor-state.json" },
         mapSet [] "ssl-monitor-state.json"
           (State.FileData.valid (State.serialize varStore.state))⟩ :=
  (save_fallback_amended_spec varStore envNoDirNoBase [] "state.json" (by decide)
    (by decide)).2.1 (by decide) (by decide)

/-- C10: with every channel disabled, `BuildNotifiers` yields a
dispatcher with an empty channel list whose `Send` reports aggregate
success for every notification; consequently, for any crossed and
eligible pair, under an environment whose writes succeed, the engine
loop body marks the pair in the cooldown store and counts it in the
notifications-sent tally even though no channel was invoked. -/
theorem no_channels_counts_spec
    (cfg : Config) (b : Notifier.Backends)
    (hsl : cfg.notifications.slack.enabled = false)
    (hem : cfg.notifications.email.enabled = false)
    (hwh : cfg.notifications.webhook.enabled = false)
    (hdi : cfg.notifications.discord.enabled = false) :
    Notifier.BuildNotifiers b cfg = .ok ⟨[]⟩
    ∧ (∀ n, Notifier.Manager.Send ⟨[]⟩ n = [])
    ∧ (∀ (env : State.Env) (now : Int) (domain : DomainConfig)
        (result : CheckResult) (t : Int) (sent : Nat)
        (m : State.Manager) (fs : State.FS),
        (∀ p, env.writeFails p = false) →
        Engine.thresholdCrossed result.daysRemaining t = true →
        State.ShouldSend m now domain.host t = true →
        (Engine.processThreshold ⟨[]⟩ env now domain result t sent m fs).sent = sent + 1
        ∧ (Engine.processThreshold ⟨[]⟩ env now domain result t sent m fs).markSentCalled
            = true
        ∧ State.GetLastSent
            (Engine.processThreshold ⟨[]⟩ env now domain result t sent m fs).mgr
            domain.host t = some now) := by
  refine ⟨?_, fun n => rfl, ?_⟩
  · unfold Notifier.BuildNotifiers
    simp [hsl, hem, hwh, hdi]
    rfl
  · intro env now domain result t sent m fs henv hcross helig
    have hok : (State.MarkSent env m domain.host t now fs).result = .ok () :=
      save_ok_of_writes_ok env _ fs henv
    have hval : Engine.processThreshold ⟨[]⟩ env now domain result t sent m fs
        = ⟨sent + 1, (State.MarkSent env m domain.host t now fs).mgr,
           (State.MarkSent env m domain.host t now fs).fs, true, [], true, true⟩ := by
      unfold Engine.processThreshold
      simp [Notifier.Manager.Send, hcross, helig, hok]
    simp [hval, getLastSent_markSent_self]

theorem no_channels_counts_spec_witness :
    Notifier.BuildNotifiers inertBackends allDisabledConfig = .ok ⟨[]⟩
    ∧ (Engine.processThreshold ⟨[]⟩ envOK 0 exampleDomain exampleResult 7 0
        emptyStore []).sent = 1
    ∧ State.GetLastSent
        (Engine.processThreshold ⟨[]⟩ envOK 0 exampleDomain exampleResult 7 0
          emptyStore []).mgr exampleDomain.host 7 = some 0 := by
  have h := no_channels_counts_spec allDisabledConfig inertBackends rfl rfl rfl rfl
  have h3 := h.2.2 envOK 0 exampleDomain exampleResult 7 0 emptyStore []
    (fun _ => rfl) (by decide) rfl
  exact ⟨h.1, h3.1, h3.2.2⟩

theorem dispatcher_send_spec_witness :
    Notifier.Manager.Send ⟨[failingChannel, okChannel]⟩
        (Engine.notificationFor exampleDomain exampleResult 7)
      = [failingChannel, okChannel].filterMap
          (fun c => (c.send (Engine.notificationFor exampleDomain exampleResult 7)).map
            fun e => (c.name, e))
    ∧ (Notifier.Manager.Send ⟨[failingChannel, okChannel]⟩
        (Engine.notificationFor exampleDomain exampleResult 7) = []
      ↔ ∀ c ∈ [failingChannel, okChannel],
          c.send (Engine.notificationFor exampleDomain exampleResult 7) = none) :=
  dispatcher_send_spec [failingChannel, okChannel]
    (Engine.notificationFor exampleDomain exampleResult 7)

end SSLMonitor
